import Mathlib

/-!
Verification of `docs/autogen_rst.py`: a tool that mirrors a source package tree
into a tree of reStructuredText stub documents (one module page per `.py` file,
one `index.rst` per package directory that directly contains eligible modules).

The embedding below translates the Python source faithfully:
* strings are Lean `String`s; the Python string operations used by the source
  (`split`, `replace`, `startswith`, `endswith`, slicing, `os.path.splitext`)
  are re-implemented as executable Lean functions on the character list;
* the source tree is an inductive `Dir` (name, immediate subdirectories,
  immediate files);
* the output filesystem is a map from normalized rst_root-relative paths
  (lists of path segments; `os.path.relpath(root, src_root) = "."` contributes
  no segment) to file contents, and a run of `make_rst` is the ordered list of
  `write_to_file` events it performs, folded over the initial filesystem.
-/

/-- Python `s.replace("_", "\\_")` for a single-character pattern: every
underscore is replaced by a backslash followed by the underscore. -/
def escapeUnderscores (s : String) : String :=
  String.mk ((s.toList.map (fun c => if c = '_' then ['\\', c] else [c])).flatten)

/-- Python `s.split(".")[-1]`: the suffix of `s` after the last dot
(the whole string when `s` has no dot). -/
def lastDotComponent (s : String) : String :=
  String.mk ((s.toList.reverse.takeWhile (fun c => c != '.')).reverse)

/-- Python `s.startswith(p)`. -/
def strStartsWith (s p : String) : Bool :=
  p.toList.isPrefixOf s.toList

/-- Python `s.endswith(p)`. -/
def strEndsWith (s p : String) : Bool :=
  p.toList.reverse.isPrefixOf s.toList.reverse

/-- Python `s[:-n]` for `n > 0`: drop the last `n` characters (empty result
when `s` has at most `n` characters). -/
def strDropRight (s : String) (n : Nat) : String :=
  String.mk ((s.toList.reverse.drop n).reverse)

/-- Python `sep.join(xs)`. -/
def strJoin (sep : String) : List String → String
  | [] => ""
  | [x] => x
  | x :: y :: xs => x ++ sep ++ strJoin sep (y :: xs)

/-- Python `os.path.splitext` on a bare filename (no path separators): splits
off the extension beginning at the last dot, except that a run of leading dots
never begins an extension (so `".py"` has extension `""`). -/
def splitext (f : String) : String × String :=
  let cs := f.toList
  let tailLen := (cs.reverse.takeWhile (fun c => c != '.')).length
  if tailLen = cs.length then (f, "")
  else
    let k := cs.length - tailLen - 1
    if (cs.take k).all (fun c => c == '.') then (f, "")
    else (String.mk (cs.take k), String.mk (cs.drop k))

/-- Lines 26-29 of the source: the title of an index page is the escaped last
dot-component of the package name, except for the hard-coded root library name
`tianshou`, which is replaced by a fixed human-readable heading. -/
def indexTitle (package_name : String) : String :=
  let title := escapeUnderscores (lastDotComponent package_name)
  if title = "tianshou" then "Tianshou API Reference" else title

/-- Lines 21-30 of the source (`index_template`): Python's
`doc_references = doc_references or ""` makes both `None` and the empty list
produce an empty body; otherwise the body is a blank line, one
bullet cross-reference per entry, and a trailing newline. -/
def index_template (package_name : String) (doc_references : Option (List String)) : String :=
  let refs := doc_references.getD []
  let body :=
    if refs = [] then ""
    else "\n" ++ strJoin "\n" (refs.map (fun ref => "* :doc:`" ++ ref ++ "`")) ++ "\n"
  indexTitle package_name ++ "\n"
    ++ String.mk (List.replicate (indexTitle package_name).length '=') ++ body

/-- Calling `index_template` with the second argument omitted: Python's
declared default value for `doc_references` is `None`. -/
def index_template_default (package_name : String) : String :=
  index_template package_name none

/-- Lines 9-18 of the source (`module_template`): escaped title, an `=`
underline of the title's length, a blank line, then the fixed automodule
directive block parameterized by the module's qualified name. -/
def module_template (module_qualname : String) : String :=
  let title := escapeUnderscores (lastDotComponent module_qualname)
  title ++ "\n" ++ String.mk (List.replicate title.length '=')
    ++ "\n\n.. automodule:: " ++ module_qualname
    ++ "\n   :members:\n   :undoc-members:\n"

/-- A directory of the source tree: its name, its immediate subdirectories and
the names of its immediate regular files. -/
inductive Dir where
  | mk (name : String) (subdirs : List Dir) (files : List String)

def Dir.name : Dir → String
  | Dir.mk n _ _ => n

def Dir.subdirs : Dir → List Dir
  | Dir.mk _ s _ => s

def Dir.files : Dir → List String
  | Dir.mk _ _ f => f

/-- A path relative to `rst_root`, as a list of segments (normalized: the
relative path `"."` is the empty list). -/
abbrev RPath : Type := List String

/-- One `write_to_file` event: target path and content written. -/
abbrev Write : Type := RPath × String

/-- Python `os.listdir` of a directory: its immediate entries. The listing
order is filesystem-dependent; files before subdirectories is fixed here,
consistently for every run. -/
def listdir (d : Dir) : List String :=
  d.files ++ d.subdirs.map Dir.name

/-- Lines 77-79: `[f[:-3] for f in files_in_dir if f.endswith(".py") and not
f.startswith("_")]`, the eligible module names directly inside `sub`. -/
def moduleNames (sub : Dir) : List String :=
  ((listdir sub).filter (fun f => strEndsWith f ".py" && !(strStartsWith f "_"))).map
    (fun f => strDropRight f 3)

/-- Lines 80-84: `[os.path.join(f, "index") for f in files_in_dir if
os.path.isdir(...) and not f.startswith("_")]`; `os.path.isdir` holds exactly
for the entries that are subdirectories of `sub`. -/
def subdirRefs (sub : Dir) : List String :=
  ((listdir sub).filter
      (fun f => (sub.subdirs.map Dir.name).any (fun n => decide (n = f))
        && !(strStartsWith f "_"))).map
    (fun f => f ++ "/index")

/-- Lines 72-99: the body of the `dirnames` loop for one immediate
subdirectory `sub` of the visited root. Skips `sub` when its name starts with
an underscore (line 73) or when it directly contains no eligible module
(line 85); otherwise produces the index write for `sub`. -/
def subIndexWrite (baseQual : String) (baseRelpath : RPath) (sub : Dir) : Option Write :=
  if strStartsWith sub.name "_" then none
  else if moduleNames sub = [] then none
  else some (baseRelpath ++ [sub.name, "index.rst"],
    index_template (baseQual ++ "." ++ sub.name)
      (some (moduleNames sub ++ subdirRefs sub)))

/-- Lines 101-111: the body of the `filenames` loop for one file of the
visited root. The existence check at line 107 guards only a debug log (there
is no `continue` in its body), so the write at line 111 is performed whenever
the file is an eligible module, regardless of `overwrite` and of the current
filesystem contents. -/
def moduleWrite (baseQual : String) (baseRelpath : RPath) (filename : String) : Option Write :=
  let base_name := (splitext filename).1
  let ext := (splitext filename).2
  if ext = ".py" ∧ strStartsWith filename "_" = false then
    some (baseRelpath ++ [base_name ++ ".rst"],
      module_template (baseQual ++ "." ++ strDropRight filename 3))
  else none

/-- One iteration of the `os.walk` loop (lines 63-111) for a visited directory
`d` reached from the source root along the relative path `segs` (empty for the
source root itself, whose basename is `srcName`). Line 64's check on the
basename of the visited root suppresses all writes of this iteration when the
basename starts with an underscore. -/
def visitWrites (pfx srcName : String) (segs : RPath) (d : Dir) : List Write :=
  if strStartsWith (segs.getLastD srcName) "_" then []
  else
    let baseQual := pfx ++ strJoin "." (srcName :: segs)
    (d.subdirs.filterMap (subIndexWrite baseQual segs))
      ++ (d.files.filterMap (moduleWrite baseQual segs))

mutual

/-- The writes of `os.walk(src_root)` from the visit of `d` downwards, in
order. The `continue` at line 65 skips only the excluded directory's own
iteration: it does not remove entries from `dirnames`, so `os.walk` still
descends into every subdirectory, underscore-named ones included. -/
def walkWrites (pfx srcName : String) (segs : RPath) : Dir → List Write
  | Dir.mk n subs files =>
    visitWrites pfx srcName segs (Dir.mk n subs files)
      ++ walkChildren pfx srcName segs subs

/-- The walk's writes for a list of sibling subdirectories of the directory at
relative path `segs`, in listing order. -/
def walkChildren (pfx srcName : String) (segs : RPath) : List Dir → List Write
  | [] => []
  | d :: ds =>
    walkWrites pfx srcName (segs ++ [d.name]) d ++ walkChildren pfx srcName segs ds

end

/-- The ordered list of `write_to_file` events of one run of `make_rst`
(lines 60-111): the unconditional top-level index write at
`rst_root/index.rst` (line 61), then the walk's writes. -/
def makeRstWrites (pfx srcName : String) (tree : Dir) : List Write :=
  (["index.rst"], index_template (pfx ++ srcName) none) :: walkWrites pfx srcName [] tree

/-- The output filesystem: contents of the files below `rst_root`, keyed by
normalized relative path. -/
abbrev Fs : Type := RPath → Option String

def emptyFs : Fs := fun _ => none

/-- `write_to_file` (lines 33-37) as a filesystem update: the content is
written verbatim, fully replacing any existing content at the path. -/
def fsWrite (fs : Fs) (p : RPath) (c : String) : Fs :=
  fun q => if q = p then some c else fs q

/-- Apply a list of write events left to right (later writes win). -/
def applyWrites : List Write → Fs → Fs
  | [], fs => fs
  | w :: ws, fs => applyWrites ws (fsWrite fs w.1 w.2)

/-- Lines 40-111 (`make_rst`) as a transformer of the output filesystem.
`clean` empties the modelled subtree first (lines 57-58; see `makeRstStatus`
for the model that also tracks the status of `rst_root` itself). `overwrite`
is accepted but, exactly as in the source, it only guards the debug log at
lines 107-108 and affects no write. -/
def make_rst (pfx srcName : String) (tree : Dir) (clean overwrite : Bool) (fs : Fs) : Fs :=
  applyWrites (makeRstWrites pfx srcName tree) (if clean then emptyFs else fs)

/-- The status of the path `rst_root` itself in the surrounding filesystem. -/
inductive RootStatus where
  | absent
  | regularFile
  | directory
deriving DecidableEq

/-- Lines 57-58: `if clean and os.path.isdir(rst_root): shutil.rmtree(rst_root)`.
Returns the status of `rst_root` afterwards, the surviving output subtree, and
whether the recursive delete was performed. -/
def cleanStep (clean : Bool) (st : RootStatus) (fs : Fs) : RootStatus × Fs × Bool :=
  if clean = true ∧ st = RootStatus.directory then (RootStatus.absent, emptyFs, true)
  else (st, fs, false)

/-- Modelled after Python `os.makedirs(dir, exist_ok=True)`, executed by
`write_to_file` for the first write of the run (line 61, whose target's parent
directory is `rst_root` itself): it creates the directory when absent,
succeeds when a directory already exists, and raises `FileExistsError` when a
non-directory entry occupies the path. -/
def makedirsRoot : RootStatus → Except String RootStatus
  | RootStatus.regularFile => Except.error "FileExistsError"
  | _ => Except.ok RootStatus.directory

/-- `make_rst` including the status of `rst_root` itself: returns whether the
recursive delete ran, and either the error raised by the first write's
`os.makedirs` or the final status and output subtree. -/
def makeRstStatus (pfx srcName : String) (tree : Dir) (clean overwrite : Bool)
    (st : RootStatus) (fs : Fs) : Bool × Except String (RootStatus × Fs) :=
  let c := cleanStep clean st fs
  match makedirsRoot c.1 with
  | Except.error e => (c.2.2, Except.error e)
  | Except.ok st2 =>
    (c.2.2, Except.ok (st2, applyWrites (makeRstWrites pfx srcName tree) c.2.1))

/-- The content of the last write to path `p` in the event list, if any. -/
def lastVal : List Write → RPath → Option String
  | [], _ => none
  | w :: ws, p =>
    match lastVal ws p with
    | some c => some c
    | none => if p = w.1 then some w.2 else none

/-- Concrete source tree `src/a.py` used to exhibit the ignored overwrite flag. -/
def c1Tree : Dir := Dir.mk "src" [] ["a.py"]

/-- An output filesystem pre-seeded with sentinel content at `a.rst`. -/
def c1Fs : Fs := fsWrite emptyFs ["a.rst"] "SENTINEL"

/-- Concrete source tree `src/_x/y/m.py`: an eligible module nested below an
underscore-named directory. -/
def c2Tree : Dir := Dir.mk "src" [Dir.mk "_x" [Dir.mk "y" [] ["m.py"]] []] []

/-- Concrete directory `d` holding a module `m.py` and two subdirectories,
one of them underscore-named. -/
def c3Sub : Dir := Dir.mk "d" [Dir.mk "a" [] [], Dir.mk "_b" [] []] ["m.py"]

/-- Concrete directory with one module file and one plain subdirectory. -/
def c3wSub : Dir := Dir.mk "w" [Dir.mk "u" [] []] ["x.py"]

/-- Concrete directory whose only entry is a subdirectory named `b.py`:
no module file at all, but a `.py`-named listing entry. -/
def c4Sub : Dir := Dir.mk "d2" [Dir.mk "b.py" [] []] []

/-- Concrete source tree `pkg/{a.py, sub/b.py}`. -/
def c6Tree : Dir := Dir.mk "pkg" [Dir.mk "sub" [] ["b.py"]] ["a.py"]

/-- An output filesystem pre-seeded with sentinels at both index paths and at
the module page path. -/
def c6Fs : Fs :=
  fsWrite (fsWrite (fsWrite emptyFs ["index.rst"] "S1") ["sub", "index.rst"] "S2") ["a.rst"] "S3"

/-- Concrete source tree `src/a.py` for the root-status model. -/
def c9Tree : Dir := Dir.mk "src" [] ["a.py"]

theorem walkWrites_mk (pfx srcName : String) (segs : RPath) (n : String)
    (subs : List Dir) (files : List String) :
    walkWrites pfx srcName segs (Dir.mk n subs files) =
      visitWrites pfx srcName segs (Dir.mk n subs files)
        ++ walkChildren pfx srcName segs subs := by
  simp only [walkWrites]

theorem walkChildren_nil (pfx srcName : String) (segs : RPath) :
    walkChildren pfx srcName segs [] = [] := by
  simp only [walkChildren]

theorem walkChildren_cons (pfx srcName : String) (segs : RPath) (d : Dir) (ds : List Dir) :
    walkChildren pfx srcName segs (d :: ds) =
      walkWrites pfx srcName (segs ++ [d.name]) d ++ walkChildren pfx srcName segs ds := by
  simp only [walkChildren]

theorem applyWrites_lookup (ws : List Write) (fs : Fs) (p : RPath) :
    applyWrites ws fs p =
      match lastVal ws p with
      | some c => some c
      | none => fs p := by
  induction ws generalizing fs with
  | nil => rfl
  | cons w ws ih =>
    show applyWrites ws (fsWrite fs w.1 w.2) p = _
    rw [ih]
    simp only [lastVal]
    cases lastVal ws p with
    | some c => rfl
    | none =>
      show fsWrite fs w.1 w.2 p = _
      by_cases h : p = w.1 <;> simp [fsWrite, h]

/-- Re-applying the same write sequence leaves every path's content fixed. -/
theorem applyWrites_idem (ws : List Write) (fs : Fs) (p : RPath) :
    applyWrites ws (applyWrites ws fs) p = applyWrites ws fs p := by
  rw [applyWrites_lookup, applyWrites_lookup]
  cases lastVal ws p <;> rfl

theorem str_append_empty (s : String) : s ++ "" = s := by
  cases s with
  | mk data =>
    show String.mk (data ++ []) = String.mk data
    rw [List.append_nil]

/-- With no references (Python `None`), an index page is the title line and
its `=` underline, nothing more. -/
theorem index_template_none (p : String) :
    index_template p none =
      indexTitle p ++ "\n" ++ String.mk (List.replicate (indexTitle p).length '=') := by
  show indexTitle p ++ "\n" ++ String.mk (List.replicate (indexTitle p).length '=') ++ "" = _
  exact str_append_empty _

/-- Under a well-formed listing (no duplicate entry names), the sub-index
references computed at lines 80-84 are exactly the non-underscore immediate
subdirectories, each rendered as `name/index`. -/
theorem subdirRefs_eq (sub : Dir) (h : (listdir sub).Nodup) :
    subdirRefs sub
      = ((sub.subdirs.map Dir.name).filter (fun n => !(strStartsWith n "_"))).map
          (fun n => n ++ "/index") := by
  have hdisj : sub.files.Disjoint (sub.subdirs.map Dir.name) := by
    rw [listdir, List.nodup_append] at h
    exact h.2.2
  unfold subdirRefs listdir
  rw [List.filter_append]
  have h1 : sub.files.filter
      (fun f => (sub.subdirs.map Dir.name).any (fun n => decide (n = f))
        && !(strStartsWith f "_")) = [] := by
    rw [List.filter_eq_nil_iff]
    intro f hf
    simp only [Bool.and_eq_true, List.any_eq_true, decide_eq_true_eq, not_and]
    rintro ⟨n, hn, rfl⟩
    exact absurd hn (hdisj hf)
  have h2 : (sub.subdirs.map Dir.name).filter
      (fun f => (sub.subdirs.map Dir.name).any (fun n => decide (n = f))
        && !(strStartsWith f "_"))
      = (sub.subdirs.map Dir.name).filter (fun n => !(strStartsWith n "_")) := by
    apply List.filter_congr
    intro n hn
    have hc : (sub.subdirs.map Dir.name).any (fun m => decide (m = n)) = true :=
      List.any_eq_true.mpr ⟨n, hn, by simp⟩
    rw [hc, Bool.true_and]
  rw [h1, h2, List.nil_append]

/-- The eligible-modules list of lines 77-79 is empty exactly when no listed
entry both ends in `.py` and avoids a leading underscore. -/
theorem moduleNames_eq_nil_iff (sub : Dir) :
    moduleNames sub = [] ↔
      ∀ f ∈ listdir sub, ¬(strEndsWith f ".py" = true ∧ strStartsWith f "_" = false) := by
  unfold moduleNames
  rw [List.map_eq_nil_iff, List.filter_eq_nil_iff]
  constructor
  · intro h f hf
    have := h f hf
    simp only [Bool.and_eq_true, Bool.not_eq_true'] at this
    tauto
  · intro h f hf
    have := h f hf
    simp only [Bool.and_eq_true, Bool.not_eq_true']
    tauto

theorem moduleNames_ne_nil (sub : Dir) (h : moduleNames sub ≠ []) :
    ∃ f ∈ listdir sub, strEndsWith f ".py" = true ∧ strStartsWith f "_" = false := by
  by_contra hc
  exact h ((moduleNames_eq_nil_iff sub).mpr (fun f hf hand => hc ⟨f, hf, hand⟩))

theorem getLast?_replicate_pos (n : Nat) (c : Char) (h : 0 < n) :
    (List.replicate n c).getLast? = some c := by
  induction n with
  | zero => omega
  | succ m ih =>
    cases m with
    | zero => rfl
    | succ k =>
      rw [List.replicate_succ, List.replicate_succ, List.getLast?_cons_cons,
        ← List.replicate_succ]
      exact ih (Nat.succ_pos k)

theorem str_data_ne_nil (s : String) (h : s ≠ "") : s.data ≠ [] := by
  intro hd
  exact h (String.ext hd)

/-- C1: the claim says that with `overwrite=false` a module source file whose
target path already exists is left byte-for-byte unchanged. On the concrete
tree `src/a.py` with `a.rst` pre-seeded with sentinel content and
`clean=false, overwrite=false`, the run nevertheless replaces the sentinel
with the generated module template: line 107 checks existence but its branch
only logs, and line 111 writes unconditionally. -/
theorem C1_overwrite_ignored :
    make_rst "" "src" c1Tree false false c1Fs ["a.rst"] = some (module_template "src.a")
    ∧ module_template "src.a" ≠ "SENTINEL" := by
  constructor
  · simp only [make_rst, makeRstWrites, c1Tree, walkWrites_mk, walkChildren_nil]
    decide
  · decide

/-- C2 counterexample: the claim says the walk never descends below an
underscore-named directory and no document derives its qualified name from
one. On the tree `src/_x/y/m.py` the run emits a module page at `_x/y/m.rst`
with qualified name `src._x.y.m`, which passes through the excluded segment
`_x`: the `continue` at line 65 does not prune `os.walk`'s descent. -/
theorem C2_descends_below_excluded :
    makeRstWrites "" "src" c2Tree =
      [(["index.rst"], index_template "src" none),
       (["_x", "y", "m.rst"], module_template "src._x.y.m")] := by
  simp only [makeRstWrites, c2Tree, walkWrites_mk, walkChildren_cons, walkChildren_nil,
    Dir.name]
  decide

/-- C2 (amended): a directory whose basename starts with an underscore emits
no writes during its own visit, and its parent's `dirnames` loop emits no
index for it; but the walk still descends into its subtree (the walk of an
excluded directory is exactly the walk of its children). -/
theorem C2_excluded_dir_emits_nothing (pfx srcName baseQual : String) (segs : RPath)
    (d sub : Dir)
    (h : strStartsWith (segs.getLastD srcName) "_" = true)
    (hsub : strStartsWith sub.name "_" = true) :
    visitWrites pfx srcName segs d = []
    ∧ walkWrites pfx srcName segs d = walkChildren pfx srcName segs d.subdirs
    ∧ subIndexWrite baseQual segs sub = none := by
  have hv : visitWrites pfx srcName segs d = [] := by
    unfold visitWrites
    rw [if_pos h]
  refine ⟨hv, ?_, ?_⟩
  · cases d with
    | mk n subs files =>
      simp only [walkWrites, hv, List.nil_append, Dir.subdirs]
  · unfold subIndexWrite
    rw [if_pos hsub]

/-- C2 witness: the amended statement applied to the concrete excluded
directory `_x` holding `m.py`, and to an underscore subdirectory `_b`. -/
theorem C2_excluded_dir_emits_nothing_witness :
    strStartsWith (["_x"].getLastD "src") "_" = true
    ∧ strStartsWith (Dir.mk "_b" [] []).name "_" = true
    ∧ (visitWrites "" "src" ["_x"] (Dir.mk "_x" [] ["m.py"]) = []
       ∧ walkWrites "" "src" ["_x"] (Dir.mk "_x" [] ["m.py"])
           = walkChildren "" "src" ["_x"] (Dir.mk "_x" [] ["m.py"]).subdirs
       ∧ subIndexWrite "q" ["_x"] (Dir.mk "_b" [] []) = none) :=
  ⟨by decide, by decide,
    C2_excluded_dir_emits_nothing "" "src" "q" ["_x"] (Dir.mk "_x" [] ["m.py"])
      (Dir.mk "_b" [] []) (by decide) (by decide)⟩

/-- C3 counterexample: the claim says the sub-index references of an emitted
package index include every immediate subdirectory regardless of a leading
underscore. For the directory `d` with subdirectories `a` and `_b` and module
`m.py`, the emitted references are `m` and `a/index` only: line 83 filters out
`_b` with `not f.startswith("_")`, so `_b/index` is absent. -/
theorem C3_excluded_subdir_not_referenced :
    subIndexWrite "pkg" [] c3Sub
      = some (["d", "index.rst"], index_template "pkg.d" (some ["m", "a/index"])) := by
  decide

/-- C3 (amended): when `make_rst` emits a package index for a directory `d`
(with unique entry names, as on a real filesystem), the sub-index references
in its body are exactly the immediate subdirectories of `d` whose names do not
start with an underscore, each referenced as `name/index`. -/
theorem C3_refs_are_nonexcluded_subdirs (baseQual : String) (segs : RPath) (sub : Dir)
    (hname : strStartsWith sub.name "_" = false)
    (hmod : moduleNames sub ≠ [])
    (hnodup : (listdir sub).Nodup) :
    subIndexWrite baseQual segs sub
      = some (segs ++ [sub.name, "index.rst"],
          index_template (baseQual ++ "." ++ sub.name)
            (some (moduleNames sub
              ++ ((sub.subdirs.map Dir.name).filter (fun n => !(strStartsWith n "_"))).map
                  (fun n => n ++ "/index")))) := by
  unfold subIndexWrite
  simp only [hname, Bool.false_eq_true, if_false]
  rw [if_neg hmod, subdirRefs_eq sub hnodup]

/-- C3 witness: the amended statement applied to the concrete directory `w`
containing `x.py` and the subdirectory `u`. -/
theorem C3_refs_are_nonexcluded_subdirs_witness :
    strStartsWith c3wSub.name "_" = false
    ∧ moduleNames c3wSub ≠ []
    ∧ (listdir c3wSub).Nodup
    ∧ subIndexWrite "p" [] c3wSub
        = some ([] ++ [c3wSub.name, "index.rst"],
            index_template ("p" ++ "." ++ c3wSub.name)
              (some (moduleNames c3wSub
                ++ ((c3wSub.subdirs.map Dir.name).filter
                      (fun n => !(strStartsWith n "_"))).map
                    (fun n => n ++ "/index")))) :=
  ⟨by decide, by decide, by decide,
    C3_refs_are_nonexcluded_subdirs "p" [] c3wSub (by decide) (by decide) (by decide)⟩

/-- C4 counterexample: the claim says an index is written if and only if the
directory directly contains an eligible module *file*. The directory `d2`
contains no file at all — its single entry is a subdirectory named `b.py` —
yet an index is written for it: `module_names` at lines 77-79 filters the
`os.listdir` output by name only (`endswith(".py")`), with no `isfile` check,
so the subdirectory named `b.py` makes it nonempty and the "only if"
direction fails. -/
theorem C4_dir_named_py_gets_index :
    (subIndexWrite "p" [] c4Sub).isSome = true
    ∧ ¬ ∃ f ∈ c4Sub.files, strEndsWith f ".py" = true ∧ strStartsWith f "_" = false := by
  decide

/-- C4 (amended): the `dirnames` loop writes an index for a visited
non-excluded subdirectory `sub` if and only if `os.listdir(sub)` contains at
least one entry (file or subdirectory) whose name ends in `.py` and does not
start with an underscore — the eligibility test is by name only, with no
`isfile` check. In particular a directory whose eligible modules all live in
nested subdirectories, and which has no `.py`-named entry of its own, gets no
index. -/
theorem C4_index_iff_eligible_entry (baseQual : String) (segs : RPath) (sub : Dir)
    (hname : strStartsWith sub.name "_" = false) :
    (subIndexWrite baseQual segs sub).isSome = true ↔
      ∃ f ∈ listdir sub, strEndsWith f ".py" = true ∧ strStartsWith f "_" = false := by
  unfold subIndexWrite
  simp only [hname, Bool.false_eq_true, if_false]
  by_cases hm : moduleNames sub = []
  · rw [if_pos hm]
    simp only [Option.isSome_none, Bool.false_eq_true, false_iff]
    rintro ⟨f, hf, h1, h2⟩
    exact (moduleNames_eq_nil_iff sub).mp hm f hf ⟨h1, h2⟩
  · rw [if_neg hm]
    simp only [Option.isSome_some, true_iff]
    exact moduleNames_ne_nil sub hm

/-- C4 witness: the equivalence applied to the concrete directory `q`
containing only the module file `z.py`. -/
theorem C4_index_iff_eligible_entry_witness :
    strStartsWith (Dir.mk "q" [] ["z.py"]).name "_" = false
    ∧ ((subIndexWrite "p" [] (Dir.mk "q" [] ["z.py"])).isSome = true ↔
        ∃ f ∈ listdir (Dir.mk "q" [] ["z.py"]),
          strEndsWith f ".py" = true ∧ strStartsWith f "_" = false) :=
  ⟨by decide, C4_index_iff_eligible_entry "p" [] (Dir.mk "q" [] ["z.py"]) (by decide)⟩

/-- C5: running `make_rst` twice with identical arguments and
`overwrite=true` over the same source tree is idempotent: after the second
run every path of the output tree holds exactly the content it held after the
first run. (The write sequence is a function of the source tree alone, and
re-applying the same writes changes nothing.) -/
theorem C5_second_run_is_identity (pfx srcName : String) (tree : Dir) (clean : Bool)
    (fs : Fs) (p : RPath) :
    make_rst pfx srcName tree clean true (make_rst pfx srcName tree clean true fs) p
      = make_rst pfx srcName tree clean true fs p := by
  unfold make_rst
  cases clean with
  | true => rfl
  | false =>
    show applyWrites _ (applyWrites _ fs) p = applyWrites _ fs p
    exact applyWrites_idem _ fs p

/-- C6: the claim says package index files are always rewritten while the
overwrite flag gates module pages. On `pkg/{a.py, sub/b.py}` with sentinels
pre-seeded at both index paths and at `a.rst`, and `overwrite=false`, both
indexes are indeed rewritten — but so is the module page `a.rst`: the flag
gates no write at all (the existence check at line 107 only logs), contrary
to the docstring's "whether to overwrite existing rst files". -/
theorem C6_indexes_always_rewritten_and_flag_gates_nothing :
    make_rst "" "pkg" c6Tree false false c6Fs ["index.rst"] = some (index_template "pkg" none)
    ∧ make_rst "" "pkg" c6Tree false false c6Fs ["sub", "index.rst"]
        = some (index_template "pkg.sub" (some ["b"]))
    ∧ make_rst "" "pkg" c6Tree false false c6Fs ["a.rst"] = some (module_template "pkg.a") := by
  refine ⟨?_, ?_, ?_⟩ <;>
    (simp only [make_rst, makeRstWrites, c6Tree, walkWrites_mk, walkChildren_cons,
      walkChildren_nil, Dir.name]
     decide)

/-- C7: on every invocation the first write of the run targets
`rst_root/index.rst` with the index template of `namePrefix + basename(src_root)`
and no references — a title line and its underline only — whatever the source
tree contains. -/
theorem C7_top_level_index (pfx srcName : String) (tree : Dir) :
    (makeRstWrites pfx srcName tree).head?
        = some (["index.rst"], index_template (pfx ++ srcName) none)
    ∧ index_template (pfx ++ srcName) none
        = indexTitle (pfx ++ srcName) ++ "\n"
          ++ String.mk (List.replicate (indexTitle (pfx ++ srcName)).length '=') :=
  ⟨rfl, index_template_none _⟩

/-- C8: a module page renders as title = last dot-component of the qualified
name with each underscore escaped to backslash-underscore, then an underline
of `=` of exactly the rendered title's length, then the fixed automodule
block; in particular `my_module` yields the escaped title `my\_module` under
a 10-character underline. -/
theorem C8_module_title_and_underline :
    (∀ q, module_template q
        = escapeUnderscores (lastDotComponent q) ++ "\n"
          ++ String.mk (List.replicate (escapeUnderscores (lastDotComponent q)).length '=')
          ++ "\n\n.. automodule:: " ++ q ++ "\n   :members:\n   :undoc-members:\n")
    ∧ module_template "my_module"
        = "my\\_module\n==========\n\n.. automodule:: my_module\n   :members:\n   :undoc-members:\n" :=
  ⟨fun _ => rfl, by decide⟩

/-- C9 counterexample: the claim says that with `clean=true` and an
`outputRoot` that exists but is not a directory, nothing is deleted, nothing
raises, and generation proceeds normally. With a regular file at `rst_root`,
the guarded `rmtree` is indeed skipped, but the run raises `FileExistsError`
at its very first write (`os.makedirs` on `rst_root`) instead of proceeding. -/
theorem C9_nondirectory_root_raises :
    makeRstStatus "" "src" c9Tree true false RootStatus.regularFile emptyFs
      = (false, Except.error "FileExistsError") := by
  rfl

/-- C9 (amended): with `clean=true`, the recursive delete runs only when
`outputRoot` is an existing directory. When `outputRoot` is absent, no
deletion happens, nothing raises, and the run generates output normally; when
`outputRoot` exists as a non-directory, no deletion happens but the run
raises at the first write instead of proceeding. -/
theorem C9_clean_guard (pfx srcName : String) (tree : Dir) (overwrite : Bool) (fs : Fs) :
    makeRstStatus pfx srcName tree true overwrite RootStatus.absent fs
      = (false, Except.ok (RootStatus.directory,
          applyWrites (makeRstWrites pfx srcName tree) fs))
    ∧ makeRstStatus pfx srcName tree true overwrite RootStatus.regularFile fs
      = (false, Except.error "FileExistsError")
    ∧ makeRstStatus pfx srcName tree true overwrite RootStatus.directory fs
      = (true, Except.ok (RootStatus.directory,
          applyWrites (makeRstWrites pfx srcName tree) emptyFs)) := by
  refine ⟨?_, ?_, ?_⟩ <;> rfl

/-- C10: `index_template` on an empty reference list, on `None`, and with the
argument omitted (Python default `None`) all yield the same string: the title
line and its `=` underline with no body; when the title is nonempty the last
character is `=`, so there is no trailing newline. -/
theorem C10_empty_refs_like_none (p : String) (h : indexTitle p ≠ "") :
    index_template p (some []) = index_template p none
    ∧ index_template_default p = index_template p none
    ∧ index_template p none
        = indexTitle p ++ "\n" ++ String.mk (List.replicate (indexTitle p).length '=')
    ∧ (index_template p none).data.getLast? = some '=' := by
  refine ⟨rfl, rfl, index_template_none p, ?_⟩
  rw [index_template_none, String.data_append, String.data_append]
  have hlen : 0 < (indexTitle p).length :=
    List.length_pos.mpr (str_data_ne_nil _ h)
  rw [List.getLast?_append_of_ne_nil]
  · show (List.replicate (indexTitle p).length '=').getLast? = some '='
    exact getLast?_replicate_pos _ _ hlen
  · show List.replicate (indexTitle p).length '=' ≠ []
    intro hnil
    have := congrArg List.length hnil
    simp only [List.length_replicate, List.length_nil] at this
    omega

/-- C10 witness: the statement applied to the concrete package name `pkg`. -/
theorem C10_empty_refs_like_none_witness :
    indexTitle "pkg" ≠ ""
    ∧ (index_template "pkg" (some []) = index_template "pkg" none
       ∧ index_template_default "pkg" = index_template "pkg" none
       ∧ index_template "pkg" none
           = indexTitle "pkg" ++ "\n"
             ++ String.mk (List.replicate (indexTitle "pkg").length '=')
       ∧ (index_template "pkg" none).data.getLast? = some '=') :=
  ⟨by decide, C10_empty_refs_like_none "pkg" (by decide)⟩
